import Mathlib

/-!
Verification development for the LBank trading-client repository
(`src/Lbank_client`): connection/session management and
state-synchronization subsystem.

Each definition is a shallow embedding of a Python function of the
repository; the file name and function name of the source are given in
the doc comment of each definition.  Network and server behaviour is
passed in explicitly (lists of call outcomes, environment records);
`asyncio` sleeps are recorded as data (the slept durations) rather than
performed.
-/

namespace LbankClient

/-! ### WSConnection.py — `WSConnectionManager`

State of a `WSConnectionManager` object (`WSConnection.py`, `__init__`):
`keep_running = True`, `connection = None`, `reconnect_attempts = 0`.
The model adds a ghost trace `sent` of the names of subscribe/request
messages sent over the connection, used to observe (re)subscription
behaviour; none of the methods of `WSConnectionManager` itself appends
to it, because none of them sends a subscribe message in the source. -/

/-- Status of the underlying `websockets` connection object:
open or closed (`self.connection.closed`). -/
inductive ConnStatus where
  | connOpen
  | connClosed
deriving DecidableEq, Repr

/-- The mutable fields of `WSConnectionManager` (`WSConnection.py`,
lines 9–15), plus the ghost trace `sent`. -/
structure WSState where
  keepRunning : Bool
  connection : Option ConnStatus
  reconnectAttempts : Nat
  sent : List String
deriving DecidableEq, Repr

/-- The freshly constructed manager (`__init__`). -/
def initWSState : WSState :=
  { keepRunning := true, connection := none, reconnectAttempts := 0, sent := [] }

/-- The duration of `asyncio.sleep(min(2 ** self.reconnect_attempts, 300))`
in `connect` (`WSConnection.py`, line 28), as a function of the value of
`reconnect_attempts` at the time of the sleep. -/
def sleepDelay (attempt : Nat) : Nat := min (2 ^ attempt) 300

/-- `WSConnectionManager.connect` (`WSConnection.py`, lines 17–28).

`outcomes` lists the results of the successive `websockets.connect`
calls the environment would give (`true` = the call succeeds); the
returned triple is (state after the loop, durations slept between
attempts, number of executions of the loop body).  An empty `outcomes`
list truncates the (potentially unbounded) retry loop: only the finite
prefix it covers is modelled. -/
def connect : List Bool → WSState → WSState × List Nat × Nat
  | [], s => (s, [], 0)
  | ok :: rest, s =>
    if s.keepRunning then
      if ok then
        ({ s with connection := some .connOpen, reconnectAttempts := 0 }, [], 1)
      else
        let a := s.reconnectAttempts + 1
        let (s1, ds, n) := connect rest { s with reconnectAttempts := a }
        (s1, sleepDelay a :: ds, n + 1)
    else (s, [], 0)

/-- `WSConnectionManager.stop` (`WSConnection.py`, lines 42–51):
sets `keep_running = False` and closes an open connection. -/
def stop (s : WSState) : WSState :=
  { s with
    keepRunning := false
    connection :=
      match s.connection with
      | some .connOpen => some .connClosed
      | c => c }

/-- `WSConnectionManager.reconnect` (`WSConnection.py`, lines 37–40):
`await self.stop()` then `await self.connect()`. -/
def reconnect (outcomes : List Bool) (s : WSState) : WSState × List Nat × Nat :=
  connect outcomes (stop s)

/-- `WSConnectionManager.check_connection` (`WSConnection.py`,
lines 30–35).  Each element of `rounds` supplies the `connect` outcomes
available to the `reconnect` of one watchdog iteration; the result pairs
the final state with the number of executions of the loop body. -/
def checkConnection : List (List Bool) → WSState → WSState × Nat
  | [], s => (s, 0)
  | outcomes :: rest, s =>
    if s.keepRunning then
      let s1 :=
        if s.connection = some .connOpen then s else (reconnect outcomes s).1
      let (s2, n) := checkConnection rest s1
      (s2, n + 1)
    else (s, 0)

/-! ### Frames and `WSConnectionManager.listen` -/

/-- A decoded JSON object frame, modelled as an association list from
keys to string values (only the keys and the string rendering of the
values matter to the routing code). -/
abbrev Msg := List (String × String)

/-- A raw frame produced by iterating over the connection in `listen`:
either a text frame — carrying its decoded value when `json.loads`
succeeds, `none` when it raises `JSONDecodeError` — or the
`ConnectionClosed` signal ending the iteration. -/
inductive RawFrame where
  | text (decoded : Option Msg)
  | closed
deriving DecidableEq, Repr

/-- The decoded message of a well-formed text frame. -/
def RawFrame.decodedOf : RawFrame → Option Msg
  | .text d => d
  | .closed => none

/-- The inner `async for message in self.connection` of
`WSConnectionManager.listen` (`WSConnection.py`, lines 56–60) together
with its `except` clauses: a `JSONDecodeError` is logged and the
`while` loop re-enters the iteration (lines 64–65); `ConnectionClosed`
triggers `reconnect` (lines 66–68), after which the `while` guard
(now false, `stop` having run inside `reconnect`) ends the loop.
Returns the final state and the list of decoded frames handed to
`message_processor.process_incoming_message`. -/
def listenFrames (outcomes : List Bool) (s : WSState) :
    List RawFrame → WSState × List Msg
  | [] => (s, [])
  | .text none :: rest => listenFrames outcomes s rest
  | .text (some m) :: rest =>
    let r := listenFrames outcomes s rest
    (r.1, m :: r.2)
  | .closed :: _ => ((reconnect outcomes s).1, [])

/-- `WSConnectionManager.listen` (`WSConnection.py`, lines 53–71):
the `while self.keep_running` guard, the `None`-connection branch
(line 62–63, which reconnects), and the frame iteration.  Iterating an
already-closed connection raises `ConnectionClosed` at once. -/
def listen (outcomes : List Bool) (s : WSState) (frames : List RawFrame) :
    WSState × List Msg :=
  if s.keepRunning then
    match s.connection with
    | some .connOpen => listenFrames outcomes s frames
    | some .connClosed => ((reconnect outcomes s).1, [])
    | none => ((reconnect outcomes s).1, [])
  else (s, [])

/-! ### WSClient.py — `WebSocketClient._subscribe_to_streams`

The one place in the repository that issues the declared subscriptions:
kbar subscribe, historical-kbar request, and (when credentials are
configured) the `orderUpdate` and `assetUpdate` private subscriptions
(`WSClient.py`, lines 121–171).  It is called exactly once, from the
task list of `WebSocketClient.start` (line 94–96); no reconnect path
calls it. -/

/-- The subscribe/request messages `_subscribe_to_streams` sends, in
order, by stream name. -/
def desiredSubscriptions (authed : Bool) : List String :=
  ["subscribe:kbar", "request:kbar"] ++
    (if authed then ["subscribe:orderUpdate", "subscribe:assetUpdate"] else [])

/-- `WebSocketClient._subscribe_to_streams` (`WSClient.py`,
lines 121–171): a guard returns early when the connection is not
active; otherwise the messages of `desiredSubscriptions` are sent. -/
def subscribeToStreams (authed : Bool) (s : WSState) : WSState :=
  if s.connection = some .connOpen then
    { s with sent := s.sent ++ desiredSubscriptions authed }
  else s

/-! ### An operation language over the connection manager

Used to state that no reachable code path resets `keep_running` after a
`stop`: the operations below are every method of `WSConnectionManager`
plus the subscription issuance of `WebSocketClient`. -/

/-- One call into the connection layer. -/
inductive WSOp where
  | opConnect (outcomes : List Bool)
  | opStop
  | opReconnect (outcomes : List Bool)
  | opCheckConnection (rounds : List (List Bool))
  | opListen (outcomes : List Bool) (frames : List RawFrame)
  | opSubscribeToStreams (authed : Bool)

/-- Apply one operation to the state (discarding traces/counters). -/
def applyOp (s : WSState) : WSOp → WSState
  | .opConnect outcomes => (connect outcomes s).1
  | .opStop => stop s
  | .opReconnect outcomes => (reconnect outcomes s).1
  | .opCheckConnection rounds => (checkConnection rounds s).1
  | .opListen outcomes frames => (listen outcomes s frames).1
  | .opSubscribeToStreams authed => subscribeToStreams authed s

/-- Apply a sequence of operations. -/
def applyOps (ops : List WSOp) (s : WSState) : WSState :=
  ops.foldl applyOp s

/-! ### WSMessage_Processor.py — frame classification and dispatch -/

/-- Membership of a key in a decoded frame (`"status" in message`). -/
def hasKey (m : Msg) (k : String) : Bool := m.any (fun p => p.1 = k)

/-- `message.get(k)`: the value of the first binding of `k`, if any. -/
def msgGet (m : Msg) (k : String) : Option String :=
  (m.find? (fun p => p.1 = k)).map (fun p => p.2)

/-- The classification result of
`MessageProcessor.process_incoming_message`. -/
inductive FrameKind where
  | statusMsg
  | actionMsg
  | requestResponse
  | dataMsg
  | unhandled
deriving DecidableEq, Repr

/-- The `if`/`elif` chain of
`MessageProcessor.process_incoming_message`
(`WSMessage_Processor.py`, lines 147–160). -/
def classify (m : Msg) : FrameKind :=
  if hasKey m "status" then .statusMsg
  else if hasKey m "action" then .actionMsg
  else if hasKey m "request" && hasKey m "records" then .requestResponse
  else if hasKey m "type" then .dataMsg
  else .unhandled

/-- The data-handler registry built by `MessageProcessor.__init__`
(`WSMessage_Processor.py`, lines 75–84) when `ClientManager` supplies
all three callbacks (`ClientManager.py`, lines 46–51). -/
def lbankHandlers : List String := ["kbar", "orderUpdate", "assetUpdate"]

/-- `WSMessageProcessor.process_data_message`
(`WSMessage_Processor.py`, lines 24–48): reads `message.get("type")`;
a missing or falsy (empty) type is logged and dropped; otherwise the
handler registered for that type is invoked, and an unregistered type
is logged and dropped.  Returns the name of the handler invoked. -/
def processDataMessage (handlers : List String) (m : Msg) : Option String :=
  match msgGet m "type" with
  | none => none
  | some t => if t = "" then none else if t ∈ handlers then some t else none

/-- `MessageProcessor.process_incoming_message`
(`WSMessage_Processor.py`, lines 140–160), observed through which data
handler (if any) the frame reaches: only the `dataMsg` branch calls
`process_data_message`. -/
def dispatchTarget (handlers : List String) (m : Msg) : Option String :=
  match classify m with
  | .dataMsg => processDataMessage handlers m
  | _ => none

/-! ### WSSubscription.py — `SubscriptionManager` key lifecycle -/

/-- The mutable key state of `SubscriptionManager`
(`WSSubscription.py`, line 39): `self.subscribeKey`. -/
structure KeyState where
  subscribeKey : Option String
deriving DecidableEq, Repr

/-- Responses of the exchange to the key-management endpoints:
`refreshOk k` is whether `subscribe/refresh_key.do` accepts a refresh of
key `k` (`false` covers every path on which `_make_key_request` raises
`SubscriptionError`); `newKey` is the key returned by
`subscribe/get_key.do` (`none` covers a failed call or a response
without a `subscribeKey` field). -/
structure KeyEnv where
  refreshOk : String → Bool
  newKey : Option String

/-- `SubscriptionManager.get_subscribe_key` (`WSSubscription.py`,
lines 126–153): on success stores the new key and returns `True`; on a
missing key or a `SubscriptionError` clears `self.subscribeKey` and
returns `False`. -/
def getSubscribeKey (env : KeyEnv) (_s : KeyState) : KeyState × Bool :=
  match env.newKey with
  | some k => ({ subscribeKey := some k }, true)
  | none => ({ subscribeKey := none }, false)

/-- `SubscriptionManager.extend_subscribe_key_validity`
(`WSSubscription.py`, lines 155–177): with no key, falls back to
`get_subscribe_key`; with a key, tries the refresh endpoint and, if the
refresh raises `SubscriptionError`, calls `get_subscribe_key` and
returns its result. -/
def extendSubscribeKeyValidity (env : KeyEnv) (s : KeyState) : KeyState × Bool :=
  match s.subscribeKey with
  | none => getSubscribeKey env s
  | some k => if env.refreshOk k then (s, true) else getSubscribeKey env s

/-- `SubscriptionManager._ensure_key_for_private_subscription`
(`WSSubscription.py`, lines 227–239). -/
def ensureKeyForPrivateSubscription (env : KeyEnv) (s : KeyState) : KeyState × Bool :=
  match s.subscribeKey with
  | some _ => extendSubscribeKeyValidity env s
  | none => getSubscribeKey env s

/-- The payload of the subscribe message built by
`SubscriptionManager.subscribe_order_updates`
(`WSSubscription.py`, lines 279–284). -/
structure OrderSubMsg where
  action : String
  subscribe : String
  subscribeKey : Option String
  pair : String
deriving DecidableEq, Repr

/-- `SubscriptionManager.subscribe_order_updates` (`WSSubscription.py`,
lines 270–285): ensures a key and, on success, sends the subscribe
message carrying the current `self.subscribeKey`; on failure sends
nothing. -/
def subscribeOrderUpdates (env : KeyEnv) (s : KeyState) (pair : String) :
    KeyState × Option OrderSubMsg :=
  let (s1, ok) := ensureKeyForPrivateSubscription env s
  if ok then
    (s1, some { action := "subscribe", subscribe := "orderUpdate",
                subscribeKey := s1.subscribeKey, pair := pair })
  else (s1, none)

/-! ### ClientManager.py — `_periodic_reconciliation`

The cycle body is polymorphic in the snapshot types: the Python code
only compares them with `!=` and stores them, so the model takes any
types with decidable equality.  REST fetches that raise are passed in
as `Except` values. -/

/-- The three sub-maps of `StateCache` as values (`Lbank_client_utils.py`,
lines 65–69), at whatever snapshot types the REST layer produces. -/
structure SyncState (B O K : Type) where
  balances : B
  orders : O
  kbars : K
deriving DecidableEq, Repr

/-- Observable outcome of one body execution of the `while` loop of
`ClientManager._periodic_reconciliation`. -/
structure CycleResult (B O K : Type) where
  state : SyncState B O K
  /-- the loop proceeds to its next iteration -/
  continues : Bool
  /-- the `except Exception` branch logged an error -/
  loggedError : Bool
  /-- number of `set_balances`/`set_orders` calls performed -/
  setCalls : Nat
deriving DecidableEq, Repr

/-- One cycle of `ClientManager._periodic_reconciliation`
(`ClientManager.py`, lines 154–195): under credentials, fetch the REST
balance and open-orders snapshots (either may raise, modelled by
`Except.error`), read the cached views, and overwrite each cached view
by its snapshot exactly when they differ; any exception is caught,
logged, and the loop continues. -/
def periodicReconciliationCycle {B O K : Type} [DecidableEq B] [DecidableEq O]
    (authed : Bool) (fetchBalances : Except Unit B) (fetchOrders : Except Unit O)
    (st : SyncState B O K) : CycleResult B O K :=
  if authed then
    match fetchBalances, fetchOrders with
    | .ok rb, .ok ro =>
      let curB := st.balances
      let curO := st.orders
      let (st1, n1) :=
        if rb ≠ curB then ({ st with balances := rb }, 1) else (st, 0)
      let (st2, n2) :=
        if ro ≠ curO then ({ st1 with orders := ro }, 1) else (st1, 0)
      { state := st2, continues := true, loggedError := false, setCalls := n1 + n2 }
    | _, _ =>
      { state := st, continues := true, loggedError := true, setCalls := 0 }
  else
    { state := st, continues := true, loggedError := false, setCalls := 0 }

/-- The reconciliation loop over a finite prefix of cycles, each cycle
supplied with its two fetch results (`ClientManager.py`, lines 147–195;
the `_running` flag is held true for the modelled prefix). -/
def reconcileLoop {B O K : Type} [DecidableEq B] [DecidableEq O] (authed : Bool) :
    List (Except Unit B × Except Unit O) → SyncState B O K → SyncState B O K
  | [], st => st
  | (fb, fo) :: rest, st =>
    reconcileLoop authed rest (periodicReconciliationCycle authed fb fo st).state

/-! ### ClientManager.py / Lbank_client_utils.py — live-order view

`ClientManager._on_order_update_from_ws` (lines 254–281) applied to
`StateCache.update_order` / `close_order` (`Lbank_client_utils.py`,
lines 75–81).  The orders dict is modelled as a partial map from order
id to the stored order message. -/

/-- An order-update message from the `orderUpdate` stream:
`message.get("uuid")` and `message.get("status")` (both may be absent),
plus the remaining payload. -/
structure OrderMsg where
  uuid : Option String
  status : Option Int
  payload : List (String × String)
deriving DecidableEq, Repr

/-- `status_code in [2, 3, 4]` (`ClientManager.py`, lines 264–268):
fully filled, cancelled, or partially filled and cancelled. -/
def isClosedStatus (status : Option Int) : Bool :=
  status = some 2 ∨ status = some 3 ∨ status = some 4

/-- The orders dict of `StateCache`, as a partial map. -/
def Orders : Type := String → Option OrderMsg

/-- The empty orders dict (`StateCache.__init__`). -/
def emptyOrders : Orders := fun _ => none

/-- `StateCache.update_order` (`Lbank_client_utils.py`, lines 75–77):
`self._orders[order_id] = order_data`. -/
def updateOrder (orders : Orders) (id : String) (msg : OrderMsg) : Orders :=
  fun k => if k = id then some msg else orders k

/-- `StateCache.close_order` (`Lbank_client_utils.py`, lines 79–81):
`self._orders.pop(order_id, None)`. -/
def closeOrder (orders : Orders) (id : String) : Orders :=
  fun k => if k = id then none else orders k

/-- `ClientManager._on_order_update_from_ws` (`ClientManager.py`,
lines 254–281): a message without `uuid` is logged and ignored; a
terminal status removes the order; otherwise the message is upserted. -/
def onOrderUpdateFromWS (orders : Orders) (e : OrderMsg) : Orders :=
  match e.uuid with
  | none => orders
  | some id =>
    if isClosedStatus e.status then closeOrder orders id
    else updateOrder orders id e

/-- Fold a sequence of order-update events through the handler. -/
def applyOrderEvents (orders : Orders) (events : List OrderMsg) : Orders :=
  events.foldl onOrderUpdateFromWS orders

/-- The most recent event of the sequence addressed to order `id`. -/
def lastEventFor (id : String) (events : List OrderMsg) : Option OrderMsg :=
  (events.filter (fun e => e.uuid = some id)).getLast?

/-! ### Lbank_client_utils.py / state_manager.py — accessor copies

`StateCache.get_balances` returns `self._balances.copy()`
(`Lbank_client_utils.py`, lines 91–93; identically `state_manager.py`,
lines 42–45).  `dict.copy()` is a shallow copy: the returned dict is a
new object, but its values are the very same inner objects.  To make
object identity expressible, the Python heap is modelled explicitly:
top-level dicts live in `tops` (coin → address of an inner dict) and
inner dicts live in `inners`, both addressed by list index. -/

/-- An inner balance dict, e.g. `{"free": "90", "freeze": "0"}`. -/
abbrev Inner := List (String × String)

/-- The heap: all top-level dict objects and all inner dict objects. -/
structure Mem where
  tops : List (List (String × Nat))
  inners : List Inner
deriving DecidableEq, Repr

/-- The reference held by a `StateCache` object to its `_balances`
top-level dict. -/
structure CacheRef where
  balancesAddr : Nat
deriving DecidableEq, Repr

/-- Value of the first binding of a key in an association list. -/
def alGet {α : Type} (k : String) : List (String × α) → Option α
  | [] => none
  | (k1, v) :: rest => if k1 = k then some v else alGet k rest

/-- `d[k] = v` on an association-list dict: replace the binding in
place if present, else append. -/
def alPut {α : Type} (k : String) (v : α) (l : List (String × α)) :
    List (String × α) :=
  if l.any (fun p => p.1 = k) then
    l.map (fun p => if p.1 = k then (k, v) else p)
  else l ++ [(k, v)]

/-- The top-level dict object at address `t`. -/
def topObj (mem : Mem) (t : Nat) : List (String × Nat) := mem.tops.getD t []

/-- `StateCache.get_balances` (`Lbank_client_utils.py`, lines 91–93):
`return self._balances.copy()` — allocate a fresh top-level dict with
the same entries (hence the same inner-dict addresses) and return its
address. -/
def getBalances (mem : Mem) (c : CacheRef) : Mem × Nat :=
  ({ mem with tops := mem.tops ++ [topObj mem c.balancesAddr] }, mem.tops.length)

/-- The value a reader observes through the top-level dict at `t`:
each coin with its dereferenced inner dict. -/
def readTop (mem : Mem) (t : Nat) : List (String × Inner) :=
  (topObj mem t).map (fun p => (p.1, mem.inners.getD p.2 []))

/-- A top-level mutation performed by a caller on a returned dict:
`returned.pop(coin)` on the object at address `t`. -/
def topDelete (mem : Mem) (t : Nat) (coin : String) : Mem :=
  { mem with tops := mem.tops.set t ((topObj mem t).filter (fun p => p.1 ≠ coin)) }

/-- A nested mutation performed by a caller on a returned dict:
`returned[coin][field] = v` on the object at address `t`. -/
def innerWrite (mem : Mem) (t : Nat) (coin field v : String) : Mem :=
  match alGet coin (topObj mem t) with
  | some a => { mem with inners := mem.inners.set a (alPut field v (mem.inners.getD a [])) }
  | none => mem

/-! ## Helper lemmas -/

/-- The state after any `stop`: the flag is down and the connection is
not open.  Every method of the connection layer fixes such a state. -/
def dead (s : WSState) : Prop :=
  s.keepRunning = false ∧ s.connection ≠ some ConnStatus.connOpen

theorem connect_of_dead {s : WSState} (h : s.keepRunning = false) :
    ∀ outcomes, connect outcomes s = (s, [], 0) := by
  intro outcomes
  cases outcomes with
  | nil => rfl
  | cons ok rest => simp [connect, h]

theorem dead_stop (s : WSState) : dead (stop s) := by
  refine ⟨rfl, ?_⟩
  cases hc : s.connection with
  | none => simp [stop, hc]
  | some st => cases st <;> simp [stop, hc]

theorem stop_of_dead {s : WSState} (h : dead s) : stop s = s := by
  obtain ⟨h1, h2⟩ := h
  cases s with
  | mk kr conn ra sent =>
    simp only [stop]
    cases conn with
    | none => simp_all
    | some st => cases st <;> simp_all

theorem listen_of_dead {s : WSState} (h : s.keepRunning = false)
    (outcomes : List Bool) (frames : List RawFrame) :
    listen outcomes s frames = (s, []) := by
  simp [listen, h]

theorem checkConnection_of_dead {s : WSState} (h : s.keepRunning = false) :
    ∀ rounds, checkConnection rounds s = (s, 0) := by
  intro rounds
  cases rounds with
  | nil => rfl
  | cons r rest => simp [checkConnection, h]

theorem subscribeToStreams_of_dead {s : WSState}
    (h : s.connection ≠ some ConnStatus.connOpen) (authed : Bool) :
    subscribeToStreams authed s = s := by
  simp [subscribeToStreams, h]

theorem applyOp_of_dead {s : WSState} (h : dead s) (op : WSOp) :
    applyOp s op = s := by
  cases op with
  | opConnect outcomes => simp [applyOp, connect_of_dead h.1]
  | opStop => simp [applyOp, stop_of_dead h]
  | opReconnect outcomes =>
    simp [applyOp, reconnect, stop_of_dead h, connect_of_dead h.1]
  | opCheckConnection rounds => simp [applyOp, checkConnection_of_dead h.1]
  | opListen outcomes frames => simp [applyOp, listen_of_dead h.1]
  | opSubscribeToStreams authed => simp [applyOp, subscribeToStreams_of_dead h.2]

theorem applyOps_of_dead {s : WSState} (h : dead s) (ops : List WSOp) :
    applyOps ops s = s := by
  induction ops with
  | nil => rfl
  | cons op rest ih =>
    show List.foldl applyOp (applyOp s op) rest = s
    rw [applyOp_of_dead h]
    exact ih

/-! ## Claims -/

/-- Claim C2.  Once `stop()` has run on the connection manager, `keep_running`
is `False` and no sequence of further method calls (connect, stop,
reconnect, check_connection, listen, or the subscription
issuance) ever sets it back to `True`; the retry-loop body of
`connect()` never executes again (zero iterations, no delays, state
unchanged), `listen()` and `check_connection()` terminate at their next
loop check with no work done, and the connection is never open again. -/
theorem stop_is_permanent (s : WSState) (ops : List WSOp) (outcomes : List Bool)
    (frames : List RawFrame) (rounds : List (List Bool)) :
    (applyOps ops (stop s)).keepRunning = false
    ∧ connect outcomes (applyOps ops (stop s)) = (applyOps ops (stop s), [], 0)
    ∧ listen outcomes (applyOps ops (stop s)) frames = (applyOps ops (stop s), [])
    ∧ checkConnection rounds (applyOps ops (stop s)) = (applyOps ops (stop s), 0)
    ∧ (applyOps ops (stop s)).connection ≠ some ConnStatus.connOpen := by
  have hdead : dead (stop s) := dead_stop s
  rw [applyOps_of_dead hdead]
  exact ⟨hdead.1, connect_of_dead hdead.1 outcomes,
    listen_of_dead hdead.1 outcomes frames,
    checkConnection_of_dead hdead.1 rounds, hdead.2⟩

/-- Claim C2 witness: a freshly started manager that is stopped, then driven
through further operations, stays down. -/
theorem stop_is_permanent_witness :
    (applyOps [WSOp.opConnect [true]] (stop initWSState)).keepRunning = false
    ∧ connect [true, true] (applyOps [WSOp.opConnect [true]] (stop initWSState))
        = (applyOps [WSOp.opConnect [true]] (stop initWSState), [], 0)
    ∧ listen [true] (applyOps [WSOp.opConnect [true]] (stop initWSState)) [RawFrame.closed]
        = (applyOps [WSOp.opConnect [true]] (stop initWSState), [])
    ∧ checkConnection [[true]] (applyOps [WSOp.opConnect [true]] (stop initWSState))
        = (applyOps [WSOp.opConnect [true]] (stop initWSState), 0)
    ∧ (applyOps [WSOp.opConnect [true]] (stop initWSState)).connection
        ≠ some ConnStatus.connOpen :=
  stop_is_permanent initWSState [WSOp.opConnect [true]] [true, true]
    [RawFrame.closed] [[true]]

/-- Claim C1.  Failing input: a manager whose connection has dropped
(`connection.closed`, triggering `reconnect` from `listen` or
`check_connection`).  The code reissues no subscription at all over the
reconnect — `reconnect` is `stop` followed by `connect`, neither of
which sends a subscribe message, and `stop` lowers `keep_running`, so
`connect` performs zero attempts and the dropped connection is not even
re-established — while the declared desired set of subscriptions is
nonempty, contradicting "each reissued exactly once per reconnect". -/
theorem reconnect_reissues_nothing (outcomes : List Bool) (s : WSState)
    (hc : s.connection = some ConnStatus.connClosed) :
    (reconnect outcomes s).1.sent = s.sent
    ∧ (reconnect outcomes s).1.connection = some ConnStatus.connClosed
    ∧ (reconnect outcomes s).1.keepRunning = false
    ∧ (reconnect outcomes s).2.2 = 0
    ∧ desiredSubscriptions true ≠ [] := by
  have hstop : stop s = { s with keepRunning := false } := by
    simp [stop, hc]
  have hdead : (stop s).keepRunning = false := rfl
  rw [reconnect, connect_of_dead hdead, hstop]
  simp [desiredSubscriptions, hc]

/-- Claim C1 witness: a live manager with a dropped connection and a fully
willing network still reissues nothing on `reconnect`. -/
theorem reconnect_reissues_nothing_witness :
    (reconnect [true, true]
      { keepRunning := true, connection := some ConnStatus.connClosed,
        reconnectAttempts := 0, sent := ["subscribe:kbar"] }).1.sent
        = ["subscribe:kbar"]
    ∧ (reconnect [true, true]
        { keepRunning := true, connection := some ConnStatus.connClosed,
          reconnectAttempts := 0, sent := ["subscribe:kbar"] }).1.connection
        = some ConnStatus.connClosed
    ∧ (reconnect [true, true]
        { keepRunning := true, connection := some ConnStatus.connClosed,
          reconnectAttempts := 0, sent := ["subscribe:kbar"] }).1.keepRunning = false
    ∧ (reconnect [true, true]
        { keepRunning := true, connection := some ConnStatus.connClosed,
          reconnectAttempts := 0, sent := ["subscribe:kbar"] }).2.2 = 0
    ∧ desiredSubscriptions true ≠ [] :=
  reconnect_reissues_nothing [true, true]
    { keepRunning := true, connection := some ConnStatus.connClosed,
      reconnectAttempts := 0, sent := ["subscribe:kbar"] } rfl

/-- A `connect` run over `k` failed attempts followed by a success:
state ends connected with the attempt counter reset, the delays slept
are `sleepDelay (a + 1), …, sleepDelay (a + k)` for starting counter
`a`, and the loop body ran `k + 1` times. -/
theorem connect_replicate_false (k : Nat) :
    ∀ (s : WSState) (rest : List Bool), s.keepRunning = true →
      connect (List.replicate k false ++ true :: rest) s =
        ({ s with connection := some ConnStatus.connOpen, reconnectAttempts := 0 },
         (List.range k).map (fun i => sleepDelay (s.reconnectAttempts + i + 1)),
         k + 1) := by
  induction k with
  | zero =>
    intro s rest h
    simp [connect, h]
  | succ k ih =>
    intro s rest h
    rw [List.replicate_succ, List.cons_append]
    show connect (false :: (List.replicate k false ++ true :: rest)) s = _
    rw [connect]
    simp only [h, if_true, Bool.false_eq_true, if_false]
    rw [ih { keepRunning := true, connection := s.connection,
             reconnectAttempts := s.reconnectAttempts + 1, sent := s.sent } rest rfl]
    simp only [List.range_succ_eq_map, List.map_cons, List.map_map]
    refine congrArg _ ?_
    have hmap : List.map ((fun i => sleepDelay (s.reconnectAttempts + i + 1)) ∘ Nat.succ)
          (List.range k)
        = List.map (fun i => sleepDelay (s.reconnectAttempts + 1 + i + 1)) (List.range k) := by
      refine List.map_congr_left ?_
      intro i _
      exact congrArg sleepDelay (by omega)
    rw [hmap]

/-- Claim C3 (amended).  For every run of consecutive failed `connect`
attempts the delay slept after the `i`-th failure is exactly
`min (2 ^ i) 300` seconds — deterministic, with no jitter: the run
starts at 2 s, doubles on each successive failure while below the
300 s ceiling, is non-decreasing, and never exceeds 300 s; the first
successful attempt resets the counter to 0, so a later run of failures
starts again from 2 s. -/
theorem backoff_deterministic_capped (k : Nat) (s : WSState) (rest : List Bool)
    (hrun : s.keepRunning = true) (h0 : s.reconnectAttempts = 0) :
    (connect (List.replicate k false ++ true :: rest) s).2.1
      = (List.range k).map (fun i => sleepDelay (i + 1))
    ∧ (connect (List.replicate k false ++ true :: rest) s).1.reconnectAttempts = 0
    ∧ sleepDelay 1 = 2
    ∧ (∀ i j, i ≤ j → sleepDelay i ≤ sleepDelay j)
    ∧ (∀ i, sleepDelay i ≤ 300)
    ∧ (∀ i, 2 ^ (i + 1) ≤ 300 → sleepDelay (i + 1) = 2 * sleepDelay i) := by
  rw [connect_replicate_false k s rest hrun]
  refine ⟨by simp [h0], rfl, rfl, ?_, ?_, ?_⟩
  · intro i j hij
    have hpow : 2 ^ i ≤ 2 ^ j := Nat.pow_le_pow_right (by norm_num) hij
    exact min_le_min hpow le_rfl
  · intro i
    exact min_le_right _ _
  · intro i hcap
    have h1 : (2 : Nat) ^ (i + 1) = 2 * 2 ^ i := by ring
    have h2 : (2 : Nat) ^ i ≤ 300 := by
      calc (2 : Nat) ^ i ≤ 2 ^ (i + 1) := Nat.pow_le_pow_right (by norm_num) (by omega)
        _ ≤ 300 := hcap
    have h3 : 2 * 2 ^ i ≤ 300 := by omega
    simp [sleepDelay, h1, Nat.min_eq_left h3, Nat.min_eq_left h2]

/-- Claim C3 witness: a fresh manager failing three times then succeeding
sleeps exactly 2, 4, 8 seconds and ends reset. -/
theorem backoff_deterministic_capped_witness :
    (connect (List.replicate 3 false ++ true :: []) initWSState).2.1
      = (List.range 3).map (fun i => sleepDelay (i + 1))
    ∧ (connect (List.replicate 3 false ++ true :: []) initWSState).1.reconnectAttempts = 0
    ∧ sleepDelay 1 = 2
    ∧ (∀ i j, i ≤ j → sleepDelay i ≤ sleepDelay j)
    ∧ (∀ i, sleepDelay i ≤ 300)
    ∧ (∀ i, 2 ^ (i + 1) ≤ 300 → sleepDelay (i + 1) = 2 * sleepDelay i) :=
  backoff_deterministic_capped 3 initWSState [] rfl rfl

/-- Claim C3 counterexample: no jitter is ever added.  There is no jitter
function — positive somewhere, as "a small random jitter added to each
delay" requires — such that each slept delay is the capped exponential
plus that jitter: the slept delay after the `i+1`-st failure is exactly
`min (2 * 2 ^ i) 300`, leaving a zero jitter everywhere. -/
theorem backoff_has_no_jitter :
    ¬ ∃ jitter : Nat → Nat,
        (∀ i, sleepDelay (i + 1) = min (2 * 2 ^ i) 300 + jitter i)
        ∧ (∃ i, 0 < jitter i) := by
  rintro ⟨jitter, hall, i, hpos⟩
  have h := hall i
  have h1 : (2 : Nat) ^ (i + 1) = 2 * 2 ^ i := by ring
  rw [sleepDelay, h1] at h
  omega

/-- Claim C4.  If the exchange rejects the refresh of the current subscribe
key, `extend_subscribe_key_validity` discards the old key, obtains a
fresh one within the same call, and — provided obtaining succeeds —
reports success; a subsequent private subscribe
(`subscribe_order_updates`, with the exchange accepting the refresh of
refresh) carries the newly obtained token. -/
theorem refresh_failure_self_heals (env : KeyEnv) (s : KeyState)
    (oldKey newKey : String) (pair : String)
    (hold : s.subscribeKey = some oldKey)
    (hrej : env.refreshOk oldKey = false)
    (hnew : env.newKey = some newKey)
    (hacc : env.refreshOk newKey = true) :
    extendSubscribeKeyValidity env s = ({ subscribeKey := some newKey }, true)
    ∧ subscribeOrderUpdates env { subscribeKey := some newKey } pair
        = ({ subscribeKey := some newKey },
           some { action := "subscribe", subscribe := "orderUpdate",
                  subscribeKey := some newKey, pair := pair }) := by
  constructor
  · simp [extendSubscribeKeyValidity, hold, hrej, getSubscribeKey, hnew]
  · simp [subscribeOrderUpdates, ensureKeyForPrivateSubscription,
      extendSubscribeKeyValidity, hacc]

/-- Claim C4 witness: concrete key rotation — refresh of "oldkey" rejected,
"newkey" minted, subsequent `orderUpdate` subscribe carries "newkey". -/
theorem refresh_failure_self_heals_witness :
    extendSubscribeKeyValidity
        { refreshOk := fun k => k == "newkey", newKey := some "newkey" }
        { subscribeKey := some "oldkey" }
      = ({ subscribeKey := some "newkey" }, true)
    ∧ subscribeOrderUpdates
        { refreshOk := fun k => k == "newkey", newKey := some "newkey" }
        { subscribeKey := some "newkey" } "all"
      = ({ subscribeKey := some "newkey" },
         some { action := "subscribe", subscribe := "orderUpdate",
                subscribeKey := some "newkey", pair := "all" }) :=
  refresh_failure_self_heals
    { refreshOk := fun k => k == "newkey", newKey := some "newkey" }
    { subscribeKey := some "oldkey" } "oldkey" "newkey" "all"
    rfl (by decide) rfl (by decide)

/-- Claim C5.  In a reconciliation cycle in which both REST snapshots are
fetched successfully, each cached view ends equal to its REST snapshot
(so on a value difference the cache is overwritten with the snapshot),
the klines are untouched, the loop continues, and the number of cache
mutations performed is exactly the number of views that differed — in
particular, a cycle in which snapshots and cached views already agree
performs no mutation at all. -/
theorem reconciliation_overwrites_on_difference
    {B O K : Type} [DecidableEq B] [DecidableEq O]
    (rb : B) (ro : O) (st : SyncState B O K) :
    (periodicReconciliationCycle true (Except.ok rb) (Except.ok ro) st).state.balances = rb
    ∧ (periodicReconciliationCycle true (Except.ok rb) (Except.ok ro) st).state.orders = ro
    ∧ (periodicReconciliationCycle true (Except.ok rb) (Except.ok ro) st).state.kbars = st.kbars
    ∧ (periodicReconciliationCycle true (Except.ok rb) (Except.ok ro) st).setCalls
        = (if rb = st.balances then 0 else 1) + (if ro = st.orders then 0 else 1)
    ∧ (periodicReconciliationCycle true (Except.ok rb) (Except.ok ro) st).continues = true := by
  by_cases hb : rb = st.balances <;> by_cases ho : ro = st.orders <;>
    simp [periodicReconciliationCycle, hb, ho]

/-- Claim C5 witness: REST balances 100 against cached 90 overwrite the cache
(one mutation); matching orders are left alone. -/
theorem reconciliation_overwrites_on_difference_witness :
    (periodicReconciliationCycle true (Except.ok (100 : Nat)) (Except.ok (5 : Nat))
        ({ balances := 90, orders := 5, kbars := 0 } : SyncState Nat Nat Nat)).state.balances = 100
    ∧ (periodicReconciliationCycle true (Except.ok (100 : Nat)) (Except.ok (5 : Nat))
        ({ balances := 90, orders := 5, kbars := 0 } : SyncState Nat Nat Nat)).state.orders = 5
    ∧ (periodicReconciliationCycle true (Except.ok (100 : Nat)) (Except.ok (5 : Nat))
        ({ balances := 90, orders := 5, kbars := 0 } : SyncState Nat Nat Nat)).state.kbars
        = ({ balances := 90, orders := 5, kbars := 0 } : SyncState Nat Nat Nat).kbars
    ∧ (periodicReconciliationCycle true (Except.ok (100 : Nat)) (Except.ok (5 : Nat))
        ({ balances := 90, orders := 5, kbars := 0 } : SyncState Nat Nat Nat)).setCalls
        = (if (100 : Nat) = 90 then 0 else 1) + (if (5 : Nat) = 5 then 0 else 1)
    ∧ (periodicReconciliationCycle true (Except.ok (100 : Nat)) (Except.ok (5 : Nat))
        ({ balances := 90, orders := 5, kbars := 0 } : SyncState Nat Nat Nat)).continues = true :=
  reconciliation_overwrites_on_difference 100 5 { balances := 90, orders := 5, kbars := 0 }

/-- Claim C6.  If fetching either REST snapshot raises, the cycle performs no
mutation of the store (balances, orders and klines unchanged, zero
`set` calls), the error is logged, the loop continues, and the
remaining cycles execute exactly as they would have from the unchanged
state. -/
theorem reconciliation_fetch_failure_skips_cycle
    {B O K : Type} [DecidableEq B] [DecidableEq O]
    (fb : Except Unit B) (fo : Except Unit O) (st : SyncState B O K)
    (rest : List (Except Unit B × Except Unit O))
    (herr : fb = Except.error () ∨ fo = Except.error ()) :
    periodicReconciliationCycle true fb fo st
      = { state := st, continues := true, loggedError := true, setCalls := 0 }
    ∧ reconcileLoop true ((fb, fo) :: rest) st = reconcileLoop true rest st := by
  have hcycle : periodicReconciliationCycle true fb fo st
      = { state := st, continues := true, loggedError := true, setCalls := 0 } := by
    rcases herr with h | h
    · cases fo with
      | ok ro => rw [h]; rfl
      | error e => rw [h]; rfl
    · cases fb with
      | ok rb => rw [h]; rfl
      | error e => rw [h]; cases e; rfl
  refine ⟨hcycle, ?_⟩
  show reconcileLoop true rest (periodicReconciliationCycle true fb fo st).state
      = reconcileLoop true rest st
  rw [hcycle]

/-- Claim C6 witness: a failed balance fetch leaves the concrete store
untouched, is logged, and the next cycle still runs. -/
theorem reconciliation_fetch_failure_skips_cycle_witness :
    periodicReconciliationCycle true (Except.error ()) (Except.ok (5 : Nat))
        ({ balances := 90, orders := 5, kbars := 0 } : SyncState Nat Nat Nat)
      = { state := { balances := 90, orders := 5, kbars := 0 },
          continues := true, loggedError := true, setCalls := 0 }
    ∧ reconcileLoop true ((Except.error (), Except.ok 5) :: [(Except.ok 70, Except.ok 5)])
        ({ balances := 90, orders := 5, kbars := 0 } : SyncState Nat Nat Nat)
      = reconcileLoop true [(Except.ok 70, Except.ok 5)]
          ({ balances := 90, orders := 5, kbars := 0 } : SyncState Nat Nat Nat) :=
  reconciliation_fetch_failure_skips_cycle (Except.error ()) (Except.ok 5)
    { balances := 90, orders := 5, kbars := 0 } [(Except.ok 70, Except.ok 5)]
    (Or.inl rfl)

theorem applyOrderEvents_nil (st : Orders) : applyOrderEvents st [] = st := rfl

theorem applyOrderEvents_cons (st : Orders) (e : OrderMsg) (evts : List OrderMsg) :
    applyOrderEvents st (e :: evts) = applyOrderEvents (onOrderUpdateFromWS st e) evts := rfl

theorem lastEventFor_cons (id : String) (e : OrderMsg) (evts : List OrderMsg) :
    lastEventFor id (e :: evts)
      = if e.uuid = some id then
          (lastEventFor id evts).getD e |> some
        else lastEventFor id evts := by
  unfold lastEventFor
  rw [List.filter_cons]
  by_cases h : e.uuid = some id
  · simp only [h, decide_True, if_true, decide_true_eq_true]
    cases hf : (evts.filter (fun x => decide (x.uuid = some id))).getLast? with
    | none =>
      have hnil := List.getLast?_eq_none_iff.mp hf
      simp [hnil, hf, h]
    | some x =>
      obtain ⟨l, hl⟩ := List.getLast?_eq_some_iff.mp hf
      rw [hl]
      have : e :: (l ++ [x]) = (e :: l) ++ [x] := rfl
      rw [this, List.getLast?_concat]
      simp [h, hf, hl]
  · simp [h]

/-- The store after a sequence of order events, looked up at `id`,
depends only on the last event addressed to `id`. -/
theorem applyOrderEvents_lookup (evts : List OrderMsg) :
    ∀ (st : Orders) (id : String),
      applyOrderEvents st evts id
        = match lastEventFor id evts with
          | some e => if isClosedStatus e.status then none else some e
          | none => st id := by
  induction evts with
  | nil => intro st id; rfl
  | cons e evts ih =>
    intro st id
    rw [applyOrderEvents_cons, ih, lastEventFor_cons]
    by_cases h : e.uuid = some id
    · simp only [h, if_true]
      cases hl : lastEventFor id evts with
      | some e1 => simp
      | none =>
        simp only [Option.getD_none]
        show _ = if isClosedStatus e.status then none else some e
        unfold onOrderUpdateFromWS
        rw [h]
        by_cases hc : isClosedStatus e.status = true
        · simp [hc, closeOrder]
        · simp only [Bool.not_eq_true] at hc
          simp [hc, updateOrder]
    · simp only [h, if_false]
      cases hl : lastEventFor id evts with
      | some e1 => simp
      | none =>
        simp only []
        unfold onOrderUpdateFromWS
        cases hu : e.uuid with
        | none => rfl
        | some id2 =>
          have hne : id ≠ id2 := by
            intro hcontra
            apply h
            rw [hu, hcontra]
          by_cases hc : isClosedStatus e.status = true
          · simp [hc, closeOrder, hne]
          · simp only [Bool.not_eq_true] at hc
            simp [hc, updateOrder, hne]

/-- Claim C7.  For every sequence of order-update events applied through
`_on_order_update_from_ws` to an initially empty store, `get_orders`
contains an order id exactly when the most recent event carrying that
id was a non-terminal upsert (status outside {2, 3, 4}), and then maps
it to the message of that event; an id whose last event was terminal, or
that never appeared, is absent. -/
theorem live_orders_view (events : List OrderMsg) (id : String) :
    applyOrderEvents emptyOrders events id
      = match lastEventFor id events with
        | some e => if isClosedStatus e.status then none else some e
        | none => none :=
  applyOrderEvents_lookup events emptyOrders id

/-- Concrete heap for the shallow-copy scenario: one cached coin
`USDT` whose inner dict is `{"free": "90"}`. -/
def c8Mem0 : Mem := { tops := [[("USDT", 0)]], inners := [[("free", "90")]] }

/-- The `StateCache` reference for the scenario: `_balances` is the
top-level dict at address 0. -/
def c8Ref : CacheRef := { balancesAddr := 0 }

/-- Claim C8 counterexample.  `get_balances` returns `self._balances.copy()`,
a shallow copy: the returned dict shares the inner per-coin dicts with
internal storage.  A caller doing `returned["USDT"]["free"] = "0"` on
the returned value changes what every later accessor call observes:
the internal balances view goes from `USDT ↦ {"free": "90"}` to
`USDT ↦ {"free": "0"}`, refuting "returns a copy that shares no
mutable structure with internal storage". -/
theorem accessor_copy_shares_inner_state :
    readTop c8Mem0 c8Ref.balancesAddr = [("USDT", [("free", "90")])]
    ∧ readTop (innerWrite (getBalances c8Mem0 c8Ref).1 (getBalances c8Mem0 c8Ref).2
          "USDT" "free" "0") c8Ref.balancesAddr
        = [("USDT", [("free", "0")])]
    ∧ readTop (innerWrite (getBalances c8Mem0 c8Ref).1 (getBalances c8Mem0 c8Ref).2
          "USDT" "free" "0") c8Ref.balancesAddr
        ≠ readTop c8Mem0 c8Ref.balancesAddr := by
  refine ⟨rfl, rfl, ?_⟩
  decide

/-- Claim C8 (amended).  Every accessor returns a fresh top-level container —
a shallow copy: the returned dict is a new object distinct from the
internal one, the call itself leaves the observable state unchanged,
and top-level mutations of the returned dict (such as removing a coin)
never affect later accessor results; but the entries of the copy reference
exactly the same inner dict objects as internal storage, so in-place
mutation of an inner value through the returned copy is visible to
later accessor calls. -/
theorem accessor_copy_shallow (mem : Mem) (c : CacheRef) (coin : String)
    (h : c.balancesAddr < mem.tops.length) :
    (getBalances mem c).2 ≠ c.balancesAddr
    ∧ readTop (getBalances mem c).1 c.balancesAddr = readTop mem c.balancesAddr
    ∧ readTop (topDelete (getBalances mem c).1 (getBalances mem c).2 coin) c.balancesAddr
        = readTop (getBalances mem c).1 c.balancesAddr
    ∧ topObj (getBalances mem c).1 (getBalances mem c).2
        = topObj (getBalances mem c).1 c.balancesAddr := by
  have hne : mem.tops.length ≠ c.balancesAddr := by omega
  have htop : topObj (getBalances mem c).1 c.balancesAddr = topObj mem c.balancesAddr := by
    simp [getBalances, topObj, List.getD_eq_getElem?_getD, List.getElem?_append, h]
  refine ⟨hne, ?_, ?_, ?_⟩
  · unfold readTop
    rw [htop]
    rfl
  · have hdel : topObj (topDelete (getBalances mem c).1 (getBalances mem c).2 coin)
        c.balancesAddr = topObj (getBalances mem c).1 c.balancesAddr := by
      simp only [topDelete, topObj, getBalances, List.getD_eq_getElem?_getD]
      rw [List.getElem?_set_ne (by omega)]
    unfold readTop
    rw [hdel]
    rfl
  · have hlast : topObj (getBalances mem c).1 (getBalances mem c).2
        = topObj mem c.balancesAddr := by
      simp [getBalances, topObj, List.getD_eq_getElem?_getD, List.getElem?_concat_length]
    rw [hlast, htop]

/-- Claim C8 amended-claim witness at the concrete scenario heap. -/
theorem accessor_copy_shallow_witness :
    (getBalances c8Mem0 c8Ref).2 ≠ c8Ref.balancesAddr
    ∧ readTop (getBalances c8Mem0 c8Ref).1 c8Ref.balancesAddr
        = readTop c8Mem0 c8Ref.balancesAddr
    ∧ readTop (topDelete (getBalances c8Mem0 c8Ref).1 (getBalances c8Mem0 c8Ref).2 "USDT")
          c8Ref.balancesAddr
        = readTop (getBalances c8Mem0 c8Ref).1 c8Ref.balancesAddr
    ∧ topObj (getBalances c8Mem0 c8Ref).1 (getBalances c8Mem0 c8Ref).2
        = topObj (getBalances c8Mem0 c8Ref).1 c8Ref.balancesAddr :=
  accessor_copy_shallow c8Mem0 c8Ref "USDT" (by decide)

/-- A text frame (well-formed or not), as opposed to the
connection-closed signal. -/
def RawFrame.isText : RawFrame → Bool
  | .text _ => true
  | .closed => false

theorem listenFrames_drop_malformed (outcomes : List Bool) (s : WSState) :
    ∀ (pre rest : List RawFrame),
      listenFrames outcomes s (pre ++ RawFrame.text none :: rest)
        = listenFrames outcomes s (pre ++ rest) := by
  intro pre
  induction pre with
  | nil => intro rest; rfl
  | cons f pre ih =>
    intro rest
    cases f with
    | text d =>
      cases d with
      | none => exact ih rest
      | some m => exact congrArg (fun r => (r.1, m :: r.2)) (ih rest)
    | closed => rfl

theorem listenFrames_all_text (outcomes : List Bool) (s : WSState) :
    ∀ (pre suf : List RawFrame), (∀ f ∈ pre, f.isText = true) →
      listenFrames outcomes s (pre ++ suf)
        = ((listenFrames outcomes s suf).1,
           pre.filterMap RawFrame.decodedOf ++ (listenFrames outcomes s suf).2) := by
  intro pre
  induction pre with
  | nil => intro suf _; simp
  | cons f pre ih =>
    intro suf hall
    have hf : f.isText = true := hall f (List.mem_cons_self f pre)
    have hpre : ∀ g ∈ pre, g.isText = true := fun g hg => hall g (List.mem_cons_of_mem f hg)
    cases f with
    | text d =>
      cases d with
      | none => exact ih suf hpre
      | some m => exact congrArg (fun r => (r.1, m :: r.2)) (ih suf hpre)
    | closed => simp [RawFrame.isText] at hf

/-- Claim C9.  A malformed (non-JSON) frame arriving mid-stream is dropped
without any handler invocation and without any other effect — the
listening loop behaves exactly as if the frame had not arrived — and
the next well-formed frame on the same connection is still decoded and
dispatched: the dispatch trace is the decoded prefix, then the
message, then the processing of the remaining stream. -/
theorem malformed_frame_dropped_listener_continues
    (outcomes : List Bool) (s : WSState) (pre suf : List RawFrame) (m : Msg)
    (hrun : s.keepRunning = true) (hconn : s.connection = some ConnStatus.connOpen)
    (hpre : ∀ f ∈ pre, f.isText = true) :
    listen outcomes s (pre ++ RawFrame.text none :: RawFrame.text (some m) :: suf)
      = listen outcomes s (pre ++ RawFrame.text (some m) :: suf)
    ∧ (listen outcomes s (pre ++ RawFrame.text none :: RawFrame.text (some m) :: suf)).2
      = pre.filterMap RawFrame.decodedOf ++ m :: (listenFrames outcomes s suf).2 := by
  constructor
  · unfold listen
    rw [hrun, hconn]
    simp only [if_true]
    exact listenFrames_drop_malformed outcomes s pre (RawFrame.text (some m) :: suf)
  · unfold listen
    rw [hrun, hconn]
    simp only [if_true]
    rw [listenFrames_drop_malformed outcomes s pre (RawFrame.text (some m) :: suf),
      listenFrames_all_text outcomes s pre (RawFrame.text (some m) :: suf) hpre]
    simp [listenFrames]

/-- A live, open-connection manager state for the C9 scenario. -/
def c9State : WSState :=
  { keepRunning := true, connection := some ConnStatus.connOpen,
    reconnectAttempts := 0, sent := [] }

/-- The well-formed frame preceding the malformed one in the C9
scenario. -/
def c9Pre : List RawFrame := [RawFrame.text (some [("type", "kbar")])]

/-- Claim C9 witness: stream `[good1, malformed, good2]` on a live open
connection behaves as `[good1, good2]` and dispatches `good1` then
`good2`. -/
theorem malformed_frame_dropped_listener_continues_witness :
    listen [] c9State
        (c9Pre ++ RawFrame.text none :: RawFrame.text (some [("type", "orderUpdate")]) :: [])
      = listen [] c9State (c9Pre ++ RawFrame.text (some [("type", "orderUpdate")]) :: [])
    ∧ (listen [] c9State
        (c9Pre ++ RawFrame.text none ::
          RawFrame.text (some [("type", "orderUpdate")]) :: [])).2
      = c9Pre.filterMap RawFrame.decodedOf ++
          [("type", "orderUpdate")] :: (listenFrames [] c9State []).2 :=
  malformed_frame_dropped_listener_continues [] c9State c9Pre []
    [("type", "orderUpdate")] rfl rfl (by decide)

/-- Claim C10.  Frame classification follows the fixed key precedence of
`process_incoming_message`: a frame containing a `status` key is
handled only as a status message (never dispatched to a push-data
handler, even if it also carries `type`); otherwise an `action` frame
only as an action message; otherwise a frame with both `request` and
`records` only as a request response; otherwise a frame with a `type`
key is dispatched to the data handler registered for its type; a frame
matching none of these shapes is classified unhandled and dispatched
nowhere. -/
theorem frame_routing_precedence (m : Msg) :
    (hasKey m "status" = true →
      classify m = FrameKind.statusMsg ∧ dispatchTarget lbankHandlers m = none)
    ∧ (hasKey m "status" = false → hasKey m "action" = true →
      classify m = FrameKind.actionMsg ∧ dispatchTarget lbankHandlers m = none)
    ∧ (hasKey m "status" = false → hasKey m "action" = false →
        hasKey m "request" = true → hasKey m "records" = true →
      classify m = FrameKind.requestResponse ∧ dispatchTarget lbankHandlers m = none)
    ∧ (hasKey m "status" = false → hasKey m "action" = false →
        (hasKey m "request" && hasKey m "records") = false → hasKey m "type" = true →
      classify m = FrameKind.dataMsg
      ∧ ∀ t, msgGet m "type" = some t → t ∈ lbankHandlers →
          dispatchTarget lbankHandlers m = some t)
    ∧ (hasKey m "status" = false → hasKey m "action" = false →
        (hasKey m "request" && hasKey m "records") = false → hasKey m "type" = false →
      classify m = FrameKind.unhandled ∧ dispatchTarget lbankHandlers m = none) := by
  refine ⟨?_, ?_, ?_, ?_, ?_⟩
  · intro hs
    have hc : classify m = FrameKind.statusMsg := by simp [classify, hs]
    exact ⟨hc, by simp [dispatchTarget, hc]⟩
  · intro hs ha
    have hc : classify m = FrameKind.actionMsg := by simp [classify, hs, ha]
    exact ⟨hc, by simp [dispatchTarget, hc]⟩
  · intro hs ha hq hr
    have hc : classify m = FrameKind.requestResponse := by simp [classify, hs, ha, hq, hr]
    exact ⟨hc, by simp [dispatchTarget, hc]⟩
  · intro hs ha hqr ht
    have hc : classify m = FrameKind.dataMsg := by simp [classify, hs, ha, hqr, ht]
    refine ⟨hc, ?_⟩
    intro t hget hmem
    have htne : t ≠ "" := by
      have hm2 : t = "kbar" ∨ t = "orderUpdate" ∨ t = "assetUpdate" := by
        simpa [lbankHandlers] using hmem
      rcases hm2 with rfl | rfl | rfl <;> decide
    simp [dispatchTarget, hc, processDataMessage, hget, htne, hmem]
  · intro hs ha hqr ht
    have hc : classify m = FrameKind.unhandled := by simp [classify, hs, ha, hqr, ht]
    exact ⟨hc, by simp [dispatchTarget, hc]⟩

/-- Claim C10 witness: a frame carrying both `status` and `type` is routed
as a status message and reaches no data handler; a plain `type: kbar`
frame is dispatched to the `kbar` handler; an empty frame is
unhandled. -/
theorem frame_routing_precedence_witness :
    (classify [("status", "error"), ("type", "kbar")] = FrameKind.statusMsg
      ∧ dispatchTarget lbankHandlers [("status", "error"), ("type", "kbar")] = none)
    ∧ (classify [("type", "kbar")] = FrameKind.dataMsg
      ∧ dispatchTarget lbankHandlers [("type", "kbar")] = some "kbar")
    ∧ (classify ([] : Msg) = FrameKind.unhandled
      ∧ dispatchTarget lbankHandlers ([] : Msg) = none) := by
  refine ⟨?_, ⟨?_, ?_⟩, ?_⟩
  · exact (frame_routing_precedence [("status", "error"), ("type", "kbar")]).1 (by decide)
  · exact ((frame_routing_precedence [("type", "kbar")]).2.2.2.1 (by decide) (by decide)
      (by decide) (by decide)).1
  · exact ((frame_routing_precedence [("type", "kbar")]).2.2.2.1 (by decide) (by decide)
      (by decide) (by decide)).2 "kbar" (by decide) (by decide)
  · exact (frame_routing_precedence ([] : Msg)).2.2.2.2 (by decide) (by decide)
      (by decide) (by decide)

end LbankClient
